import Mathlib

/-!
Shallow embedding of the agent-rs repository core: the planning/execution
loop (`src/agents.rs`), the memory step log (`src/memory.rs`), the action
capability layer (`src/actions.rs`) and the model capability
(`src/models.rs`).  Asynchronous streaming code is modelled by the finite
list of text chunks a run yields in order; a Rust panic (an `unwrap` or
`expect` firing) is modelled by `Option.none` propagating out of the
function that panics.
-/

/-- ASCII lower-casing of one character, as Rust's `to_ascii_lowercase`. -/
def ascii_lower (c : Char) : Char :=
  if 'A' ≤ c ∧ c ≤ 'Z' then Char.ofNat (c.toNat + 32) else c

/-- Rust `str::eq_ignore_ascii_case`: equality after ASCII lower-casing. -/
def eq_ignore_ascii_case (a b : String) : Bool :=
  a.toList.map ascii_lower == b.toList.map ascii_lower

/-- One pass of Rust `str::replace`: scan left to right, replace each
non-overlapping occurrence of `pat` by `rep`.  The fuel argument makes the
recursion structural; one unit of fuel is spent per consumed character, so
fuel equal to the input length always suffices. -/
def replace_fuel (pat rep : List Char) : Nat → List Char → List Char
  | 0, l => l
  | _ + 1, [] => []
  | fuel + 1, c :: cs =>
    if pat.isPrefixOf (c :: cs) then
      rep ++ replace_fuel pat rep fuel (List.drop (pat.length - 1) cs)
    else
      c :: replace_fuel pat rep fuel cs

/-- Rust `str::replace(pat, rep)` (all non-overlapping occurrences, left to
right).  An empty pattern leaves the string unchanged; the source only ever
replaces the non-empty literal placeholders of `src/prompts.rs`. -/
def str_replace (s pat rep : String) : String :=
  if pat.toList = [] then s
  else ⟨replace_fuel pat.toList rep.toList s.toList.length s.toList⟩

/-- A role-tagged chat message.  The source passes
`Vec<HashMap<String, String>>` with exactly the keys `"role"` and
`"content"` (`src/agents.rs`, `src/models.rs`). -/
structure Message where
  role : String
  content : String
deriving DecidableEq

/-- `prompts.rs` `Planning`: the planning prompt templates. -/
structure Planning where
  initial_facts : String
  initial_plan : String
  update_facts_pre_messages : String
  update_facts_post_messages : String
  update_plan_pre_messages : String
  update_plan_post_messages : String

/-- `prompts.rs` `ManagedAgent`. -/
structure ManagedAgent where
  task : String
  report : String

/-- `prompts.rs` `FinalAnswer`. -/
structure FinalAnswer where
  pre_messages : String
  post_messages : String

/-- `prompts.rs` `Prompt`: the fully-resolved prompt template set. -/
structure Prompt where
  system_prompt : String
  planning : Planning
  managed_agent : ManagedAgent
  final_answer : FinalAnswer

/-- `actions.rs` `Parameter`. -/
structure Parameter where
  name : String
  dtype : String
  description : String
deriving DecidableEq

/-- `actions.rs` `ActionInput`: a caller-supplied candidate input. -/
structure ActionInput where
  key : String
  value : String
  dtype : String
deriving DecidableEq

/-- The matching test of `Action::prepare_inputs` (`actions.rs` line 36):
exact key equality and ASCII-case-insensitive dtype equality. -/
def matches_param (p : Parameter) (i : ActionInput) : Bool :=
  p.name == i.key && eq_ignore_ascii_case p.dtype i.dtype

/-- The iterator built by `Action::prepare_inputs` before its final
`.collect()` (`actions.rs` lines 32-39): for each declared parameter, the
first supplied input matching it, keyed by the parameter name. -/
def prepare_inputs_iter (params : List Parameter) (inputs : List ActionInput) :
    List (String × ActionInput) :=
  params.filterMap fun p =>
    (inputs.find? (matches_param p)).map (fun i => (p.name, i))

/-- `HashMap::insert`: the entry overwrites any previous value at the same
key.  A `std::collections::HashMap` is observable only through per-key
lookup - it has no specified iteration order - so the map is modelled as
its lookup function. -/
def hashmap_insert (m : String → Option ActionInput) (e : String × ActionInput) :
    String → Option ActionInput :=
  fun k => if k = e.1 then some e.2 else m k

/-- `.collect::<HashMap<_, _>>()` on an iterator of pairs: insert each
produced pair in turn, so for duplicate keys the last produced entry
wins. -/
def hashmap_collect (l : List (String × ActionInput)) : String → Option ActionInput :=
  l.foldl hashmap_insert (fun _ => none)

/-- `Action::prepare_inputs` (`actions.rs` lines 31-41): the iterator of
first-match pairs collected into a `HashMap` keyed by parameter name. -/
def prepare_inputs (params : List Parameter) (inputs : List ActionInput) :
    String → Option ActionInput :=
  hashmap_collect (prepare_inputs_iter params inputs)

/-- Modelled from the spec: `src/observation.rs` is not part of the source
tree (only `mod observation;` and its uses survive).  Per §3 of the spec an
`Observation` is the opaque result text returned by an action invocation,
and the uses in `actions.rs` construct it as `Observation { result }`. -/
structure Observation where
  result : String
deriving DecidableEq

/-- `actions.rs` `ActionBase`. -/
structure ActionBase where
  name : String
  description : String
  parameters : List Parameter
  output_type : String

/-- `DuckDuckGoSearchAction::new` (`actions.rs` lines 87-104). -/
def duckduckgo_info : ActionBase :=
  { name := "DuckDuckGoSearchAction"
    description := "Search the web using DuckDuckGo"
    parameters := [⟨"query", "String", "Search query"⟩]
    output_type := "String" }

/-- `DuckDuckGoSearchAction::act` (`actions.rs` lines 137-149).  The
external `duckduckgo` process is the function `proc` from query text to
`some stdout`, or `none` when spawning fails.  The source calls
`.unwrap()` on the `HashMap::get("query")` result and `.expect(..)` on
the process result, so both failures are panics, modelled as `none`. -/
def duckduckgo_act (proc : String → Option String) (inputs : List ActionInput) :
    Option Observation :=
  let matched_inputs := prepare_inputs duckduckgo_info.parameters inputs
  match matched_inputs "query" with
  | none => none
  | some input =>
    match proc input.value with
    | none => none
    | some stdout_str => some ⟨stdout_str⟩

/-- The `Model` capability (`models.rs`): `async_generate_stream` either
fails (`Err(StatusCode, String)`, here `none`) or produces a finite stream
of chunks; each chunk is the text the consumer obtains from the bytes via
`from_utf8_lossy`. -/
structure StubModel where
  genStream : List Message → Option (List String)

/-- `Model::async_generate` default method (`models.rs` lines 34-46):
drain the stream and concatenate the chunks in order.  The `.expect` on a
stream failure is a panic, modelled as `none`. -/
def async_generate (m : StubModel) (messages : List Message) : Option String :=
  (m.genStream messages).map String.join

/-- A `Box<dyn Action>` as the agent sees it: the `as_str` rendering used
for the `{tools}` substitution and the declared parameters. -/
structure ActionObj where
  asStr : String
  parameters : List Parameter

/-- `agents.rs` `Agent<M>`. -/
structure Agent where
  model : StubModel
  max_steps : Nat
  prompt : Prompt
  available_actions : List ActionObj
  stream_outputs : Bool
  interrupt_switch : Bool
  planning_interval : Option Nat

/-- `agents.rs` `PlanOutput`. -/
inductive PlanOutput where
  | stream (s : List String)
  | text (t : String)

/-- `Agent::plan` (`agents.rs` lines 137-203).  Returns `none` when the
non-streaming branch panics in `async_generate`; in the streaming branch a
stream error is caught and becomes `PlanOutput::Text("")`. -/
def Agent.plan (agent : Agent) (state : String) (is_initial : Bool) :
    Option PlanOutput :=
  let tools_str := String.intercalate "\n" (agent.available_actions.map (·.asStr))
  let managed_agents := ""
  let input_messages : List Message :=
    if is_initial then
      [⟨"user",
        str_replace
          (str_replace
            (str_replace agent.prompt.planning.initial_plan "{task}" state)
            "{tools}" tools_str)
          "{managed_agents}" managed_agents⟩]
    else
      [⟨"system", agent.prompt.planning.update_plan_pre_messages⟩,
       ⟨"user", str_replace agent.prompt.planning.update_plan_post_messages "{task}" state⟩]
  if agent.stream_outputs then
    match agent.model.genStream input_messages with
    | none => some (.text "")
    | some s => some (.stream s)
  else
    (async_generate agent.model input_messages).map .text

/-- One iteration of the `for step in 1..=max_steps` loop body of
`Agent::_run_stream` (`agents.rs` lines 81-128): the plan chunks are
yielded as they arrive and buffered, then the generation chunks follow.
A caught generation-stream error yields one empty chunk; the non-streaming
generation branch panics (`none`) when the model call fails. -/
def run_step (agent : Agent) (task : String) (step : Nat) : Option (List String) :=
  match agent.plan task (step == 1) with
  | none => none
  | some plan_output =>
    let plan_chunks := match plan_output with
      | .stream s => s
      | .text t => [t]
    let buffer := String.join plan_chunks
    let plan_for_generation :=
      "Here are the facts I know and the plan of action that I will follow to solve the task:\n```\n"
        ++ buffer ++ "\n```"
    let messages : List Message := [⟨"system", plan_for_generation⟩, ⟨"user", task⟩]
    if agent.stream_outputs then
      match agent.model.genStream messages with
      | some gen_chunks => some (plan_chunks ++ gen_chunks)
      | none => some (plan_chunks ++ [""])
    else
      match async_generate agent.model messages with
      | some text => some (plan_chunks ++ [text])
      | none => none

/-- The loop of `Agent::_run_stream`, unrolled over the remaining
iteration count, starting at iteration number `step`. -/
def run_steps (agent : Agent) (task : String) : Nat → Nat → Option (List String)
  | 0, _ => some []
  | remaining + 1, step =>
    match run_step agent task step with
    | none => none
    | some chunks =>
      (run_steps agent task remaining (step + 1)).map (chunks ++ ·)

/-- `Agent::_run_stream` (`agents.rs` lines 72-131): the ordered chunk
sequence of a whole run (`for step in 1..=max_steps`), or `none` when an
iteration panics. -/
def run_stream (agent : Agent) (task : String) (max_steps : Nat) :
    Option (List String) :=
  run_steps agent task max_steps 1

/-- `AgentBase::run` (`agents.rs` lines 65-70): delegates to `_run_stream`
with the agent's own `max_steps` and no images. -/
def agent_run (agent : Agent) (query : String) : Option (List String) :=
  run_stream agent query agent.max_steps

/-- A JSON value, mirroring the fragment of `serde_json::Value` that
`memory.rs` constructs.  Objects carry their fields as an association
list in insertion order. -/
inductive JValue where
  | null
  | str (s : String)
  | num (n : Int)
  | bool (b : Bool)
  | arr (xs : List JValue)
  | obj (fields : List (String × JValue))

/-- `memory.rs` `ToolCall`.  `arguments` models the
`HashMap<String, Value>` as an association list. -/
structure ToolCall where
  id : String
  name : String
  arguments : List (String × JValue)

/-- `memory.rs` `TokenUsage`. -/
structure TokenUsage where
  prompt_tokens : Nat
  completion_tokens : Nat
  total_tokens : Nat

/-- `memory.rs` `Timing` (`i32` clock samples). -/
structure Timing where
  start_time : Int
  end_time : Int

/-- `TimeBase::duration` for `Timing` (`memory.rs` lines 114-118). -/
def Timing.duration (t : Timing) : Int :=
  t.end_time - t.start_time

/-- `memory.rs` `ActionStep`.  `model_input_messages` and
`model_output_message` model `ChatCompletionRequestMessage` values by
their role and content. -/
structure ActionStep where
  step_number : Nat
  timing : Timing
  model_input_messages : Option (List Message)
  tool_calls : Option (List ToolCall)
  error : Option String
  model_output_message : Option Message
  model_output : Option String
  code_action : Option String
  observations : Option String
  observations_images : Option (List String)
  action_output : Option JValue
  token_usage : Option TokenUsage
  is_final_answer : Bool

/-- `memory.rs` `PlanningStep`. -/
structure PlanningStep where
  model_input_messages : List Message
  model_output_message : Option Message
  plan : String
  timing : Timing
  token_usage : Option TokenUsage

/-- `memory.rs` `TaskStep`. -/
structure TaskStep where
  task : String
  task_images : Option (List String)

/-- `memory.rs` `SystemPromptStep`. -/
structure SystemPromptStep where
  system_prompt : String

/-- `memory.rs` `FinalAnswerStep`. -/
structure FinalAnswerStep where
  output : String

/-- `memory.rs` `Step`: the tagged union stored in `AgentMemory.steps`.
Note the source enum has only these three variants - `SystemPromptStep`
and `FinalAnswerStep` are never stored in the step list. -/
inductive Step where
  | Task (t : TaskStep)
  | Action (a : ActionStep)
  | Planning (p : PlanningStep)

/-- `memory.rs` `AgentMemory` (lines 103-106). -/
structure AgentMemory where
  system_prompt : SystemPromptStep
  steps : List Step

/-- `Agent` holds no `AgentMemory` field and `_run_stream` performs no
memory append (`agents.rs` lines 33-41 and 72-131); threading a memory
value alongside the run therefore returns it unchanged.  This definition
makes that absence of writes a statable fact. -/
def run_stream_with_memory (agent : Agent) (task : String) (max_steps : Nat)
    (mem : AgentMemory) : Option (List String) × AgentMemory :=
  (run_stream agent task max_steps, mem)

/-- Serialization of a chat message, as `serde_json::to_value` renders the
role-tagged messages of `memory.rs`. -/
def msg_json (m : Message) : JValue :=
  .obj [("role", .str m.role), ("content", .str m.content)]

/-- `ToolBase::dict` for `ToolCall` (`memory.rs` lines 132-148). -/
def tool_call_dict (c : ToolCall) : List (String × JValue) :=
  [("id", .str c.id),
   ("type", .str "function"),
   ("function", .obj [("name", .str c.name), ("arguments", .obj c.arguments)])]

/-- `ToolBase::dict` for `Timing` (`memory.rs` lines 150-158). -/
def timing_dict (t : Timing) : List (String × JValue) :=
  [("start_time", .num t.start_time),
   ("end_time", .num t.end_time),
   ("duration", .num t.duration)]

/-- The `token_usage` serialization shared by `ActionStep::dict` and
`PlanningStep::dict`. -/
def token_usage_json (u : TokenUsage) : JValue :=
  .obj [("prompt_tokens", .num u.prompt_tokens),
        ("completion_tokens", .num u.completion_tokens),
        ("total_tokens", .num u.total_tokens)]

/-- `MemoryStep::dict` for `ActionStep` (`memory.rs` lines 161-242),
fields in the source's insertion order. -/
def action_step_dict (a : ActionStep) : List (String × JValue) :=
  [("step_number", .num a.step_number),
   ("timing", .obj (timing_dict a.timing)),
   ("model_input_messages",
     match a.model_input_messages with
     | none => .null
     | some msgs => .arr (msgs.map msg_json)),
   ("tool_calls",
     match a.tool_calls with
     | none => .null
     | some calls => .arr (calls.map (fun c => .obj (tool_call_dict c)))),
   ("error",
     match a.error with
     | none => .null
     | some e => .str e),
   ("model_output_message",
     match a.model_output_message with
     | none => .null
     | some m => msg_json m),
   ("model_output",
     match a.model_output with
     | none => .null
     | some s => .str s),
   ("code_action",
     match a.code_action with
     | none => .null
     | some s => .str s),
   ("observations",
     match a.observations with
     | none => .null
     | some s => .str s),
   ("observations_images",
     match a.observations_images with
     | none => .null
     | some imgs => .arr (imgs.map .str)),
   ("action_output",
     match a.action_output with
     | none => .null
     | some v => v),
   ("token_usage",
     match a.token_usage with
     | none => .null
     | some u => token_usage_json u),
   ("is_final_answer", .bool a.is_final_answer)]

/-- `MemoryStep::dict` for `PlanningStep` (`memory.rs` lines 320-356). -/
def planning_step_dict (p : PlanningStep) : List (String × JValue) :=
  [("model_input_messages", .arr (p.model_input_messages.map msg_json)),
   ("model_output_message",
     match p.model_output_message with
     | none => .null
     | some m => msg_json m),
   ("plan", .str p.plan),
   ("timing", .obj (timing_dict p.timing)),
   ("token_usage",
     match p.token_usage with
     | none => .null
     | some u => token_usage_json u)]

/-- `MemoryStep::dict` for `TaskStep` (`memory.rs` lines 383-393). -/
def task_step_dict (t : TaskStep) : List (String × JValue) :=
  [("task", .str t.task),
   ("task_images",
     match t.task_images with
     | none => .null
     | some imgs => .arr (imgs.map .str))]

/-- The per-variant record dispatch used by `get_succinct_steps` and
`get_full_steps` (`memory.rs` lines 468-471 and 486-490). -/
def step_dict : Step → List (String × JValue)
  | .Task t => task_step_dict t
  | .Action a => action_step_dict a
  | .Planning p => planning_step_dict p

/-- Which step kinds carry a `model_input_messages` field in their record:
`ActionStep` and `PlanningStep` do, `TaskStep` does not. -/
def has_model_input_field : Step → Bool
  | .Task _ => false
  | .Action _ => true
  | .Planning _ => true

/-- `AgentMemory::reset` (`memory.rs` lines 462-464): clear the step list
only. -/
def reset (mem : AgentMemory) : AgentMemory :=
  { mem with steps := [] }

/-- `AgentMemory::get_succinct_steps` (`memory.rs` lines 465-479): each
step's record with the `model_input_messages` key removed, in step
order. -/
def get_succinct_steps (mem : AgentMemory) : List JValue :=
  mem.steps.map fun s =>
    .obj ((step_dict s).filter (fun kv => kv.1 != "model_input_messages"))

/-- `AgentMemory::get_full_steps` (`memory.rs` lines 481-495): each step's
full record, in step order. -/
def get_full_steps (mem : AgentMemory) : List JValue :=
  if mem.steps.isEmpty then []
  else mem.steps.map (fun s => .obj (step_dict s))

/-- `AgentMemory::return_full_code` (`memory.rs` lines 501-512): the
`code_action` texts of the `ActionStep`s that have one, in step order,
joined by a blank line. -/
def return_full_code (mem : AgentMemory) : String :=
  let full_code : List String := mem.steps.filterMap fun s =>
    match s with
    | .Action action_step => action_step.code_action
    | _ => none
  String.intercalate "\n\n" full_code

/-- The runtime kinds of the `MemoryStep` implementors of `memory.rs`,
standing for the `TypeId`s the callback registry keys on. -/
inductive StepKind where
  | task
  | action
  | planning
  | systemPrompt
  | finalAnswer
deriving DecidableEq

/-- A `&dyn MemoryStep` value: any of the five step structures. -/
inductive MemStep where
  | task (t : TaskStep)
  | action (a : ActionStep)
  | planning (p : PlanningStep)
  | system (s : SystemPromptStep)
  | final (f : FinalAnswerStep)

/-- The runtime kind (`TypeId`) of a `MemStep`. -/
def kind_of : MemStep → StepKind
  | .task _ => .task
  | .action _ => .action
  | .planning _ => .planning
  | .system _ => .systemPrompt
  | .final _ => .finalAnswer

/-- One registration in the callback registry: the step kind `S` the
callback was registered for (its `TypeId::of::<S>()`) and an identifier
for the callback itself, so that dispatch traces are observable. -/
structure RegEntry where
  kind : StepKind
  cid : Nat
deriving DecidableEq

/-- The wrapped closure built by `CallbackRegistry::register`
(`memory.rs` lines 527-532): it downcasts the step to `S` and invokes the
callback only when the downcast succeeds.  The result is the invocation
trace of this wrapped closure on the given step. -/
def wrapped_invoke (e : RegEntry) (s : MemStep) : List Nat :=
  if kind_of s = e.kind then [e.cid] else []

/-- `memory.rs` `CallbackRegistry` (lines 110-112): the
`HashMap<TypeId, Vec<Callback>>`, as a total table from kind to its
registered entries (absent keys are the empty list). -/
structure CallbackRegistry where
  table : StepKind → List RegEntry

/-- `CallbackRegistry::new` (`memory.rs` lines 517-519). -/
def CallbackRegistry.new : CallbackRegistry :=
  ⟨fun _ => []⟩

/-- `CallbackRegistry::register` (`memory.rs` lines 521-539): push the
wrapped callback onto the vector stored under `TypeId::of::<S>()`. -/
def CallbackRegistry.register (r : CallbackRegistry) (e : RegEntry) :
    CallbackRegistry :=
  ⟨fun k => if k = e.kind then r.table k ++ [e] else r.table k⟩

/-- `CallbackRegistry::callback` (`memory.rs` lines 541-548): look up the
step's runtime `TypeId` and run every callback stored there in order.
The result is the concatenated invocation trace. -/
def CallbackRegistry.callback (r : CallbackRegistry) (s : MemStep) : List Nat :=
  ((r.table (kind_of s)).map (fun e => wrapped_invoke e s)).flatten

/-- A registry built by a sequence of `register` calls from `new`. -/
def of_regs (regs : List RegEntry) : CallbackRegistry :=
  regs.foldl CallbackRegistry.register CallbackRegistry.new

/-- A concrete prompt template set for the end-to-end runs of the spec's
§8: the planning templates are distinct markers so a stubbed model can
tell the calls apart. -/
def stub_prompt : Prompt :=
  { system_prompt := "SYS"
    planning :=
      { initial_facts := "IFACTS"
        initial_plan := "INIT {task}"
        update_facts_pre_messages := "UFPRE"
        update_facts_post_messages := "UFPOST"
        update_plan_pre_messages := "UPD"
        update_plan_post_messages := "UPP {task}" }
    managed_agent := ⟨"MTASK", "MREPORT"⟩
    final_answer := ⟨"FPRE", "FPOST"⟩ }

/-- The stubbed model of the spec's §8 end-to-end scenario: every
planning call (one initial-plan message, or the two update-plan messages
whose first content is the `"UPD"` marker) streams exactly `"PLAN"`, and
every generation call streams exactly `"4"`. -/
def stub_model : StubModel :=
  ⟨fun msgs =>
    match msgs with
    | [_] => some ["PLAN"]
    | [m, _] => if m.content == "UPD" then some ["PLAN"] else some ["4"]
    | _ => some []⟩

/-- The agent of the §8 end-to-end scenario: stubbed model, `max_steps`
1, streaming outputs, interrupt flag clear. -/
def stub_agent : Agent :=
  { model := stub_model
    max_steps := 1
    prompt := stub_prompt
    available_actions := []
    stream_outputs := true
    interrupt_switch := false
    planning_interval := none }

/-- The §8 agent with the interrupt flag set for the whole run - in
particular it is set before step 2 begins. -/
def interrupted_agent : Agent :=
  { stub_agent with interrupt_switch := true }

/-- A model whose every call fails with a provider error. -/
def failing_model : StubModel :=
  ⟨fun _ => none⟩

/-- An agent in non-streaming mode whose model always fails. -/
def batch_failing_agent : Agent :=
  { stub_agent with model := failing_model, stream_outputs := false }

/-- An agent in streaming mode whose model always fails. -/
def stream_failing_agent : Agent :=
  { stub_agent with model := failing_model }

/-- An empty memory: the system prompt only, no steps. -/
def init_mem : AgentMemory :=
  ⟨⟨"SYS"⟩, []⟩

/-- An `ActionStep` fixture whose only populated optional field is
`code_action`. -/
def action_step_with_code (code : Option String) : ActionStep :=
  { step_number := 0
    timing := ⟨0, 0⟩
    model_input_messages := none
    tool_calls := none
    error := none
    model_output_message := none
    model_output := none
    code_action := code
    observations := none
    observations_images := none
    action_output := none
    token_usage := none
    is_final_answer := false }

/-- A `PlanningStep` fixture. -/
def sample_planning_step : PlanningStep :=
  { model_input_messages := []
    model_output_message := none
    plan := "p"
    timing := ⟨0, 0⟩
    token_usage := none }

/-- The memory of the spec's §8 `returnFullCode` example:
`[Task, Action(code="a"), Planning, Action(code=None), Action(code="b")]`. -/
def full_code_mem : AgentMemory :=
  ⟨⟨"SYS"⟩,
   [.Task ⟨"t", none⟩,
    .Action (action_step_with_code (some "a")),
    .Planning sample_planning_step,
    .Action (action_step_with_code none),
    .Action (action_step_with_code (some "b"))]⟩

/-- A memory with one planning step, used to witness the step-record
claims. -/
def planning_mem : AgentMemory :=
  ⟨⟨"SYS"⟩, [.Planning sample_planning_step]⟩

/-- A model that streams the two chunks `"a"` and `"b"` on every call. -/
def two_chunk_model : StubModel :=
  ⟨fun _ => some ["a", "b"]⟩

/-- Spec-side predicate for `returnFullCode`: the steps that are
`ActionStep`s with a present `code_action`. -/
def is_action_with_code : Step → Bool
  | .Action a => a.code_action.isSome
  | _ => false

/-- Spec-side extraction for `returnFullCode`: the `code_action` text of
an `ActionStep` (empty for the other kinds, which `is_action_with_code`
already excludes). -/
def code_text : Step → String
  | .Action a => a.code_action.getD ""
  | _ => ""

/-- Spec-side first-match predicate of §4.2: `i` occurs in `inputs`,
matches parameter `p`, and no earlier input matches `p`. -/
def is_first_match (inputs : List ActionInput) (p : Parameter) (i : ActionInput) : Prop :=
  matches_param p i = true ∧
    ∃ pre post, inputs = pre ++ i :: post ∧ ∀ j ∈ pre, matches_param p j = false

/-! ## Theorems -/

theorem find?_eq_some_iff_first (p : Parameter) (inputs : List ActionInput) (i : ActionInput) :
    inputs.find? (matches_param p) = some i ↔ is_first_match inputs p i := by
  rw [List.find?_eq_some]
  unfold is_first_match
  constructor
  · rintro ⟨hm, pre, post, heq, hall⟩
    exact ⟨hm, pre, post, heq, fun j hj => by simpa using hall j hj⟩
  · rintro ⟨hm, pre, post, heq, hall⟩
    exact ⟨hm, pre, post, heq, fun j hj => by simp [hall j hj]⟩

theorem foldl_insert_lookup (l : List (String × ActionInput)) :
    ∀ (m0 : String → Option ActionInput) (k : String),
      (l.foldl hashmap_insert m0) k
        = match hashmap_collect l k with
          | some v => some v
          | none => m0 k := by
  induction l with
  | nil => intro m0 k; rfl
  | cons e tl ih =>
    intro m0 k
    rw [List.foldl_cons, ih]
    have hcons : hashmap_collect (e :: tl) k
        = match hashmap_collect tl k with
          | some v => some v
          | none => hashmap_insert (fun _ => none) e k := by
      unfold hashmap_collect
      rw [List.foldl_cons, ih]
      rfl
    rw [hcons]
    cases hashmap_collect tl k with
    | some v => rfl
    | none =>
      unfold hashmap_insert
      by_cases hk : k = e.1
      · simp [hk]
      · simp [hk]

theorem collect_cons_lookup (e : String × ActionInput) (l : List (String × ActionInput))
    (k : String) :
    hashmap_collect (e :: l) k
      = match hashmap_collect l k with
        | some v => some v
        | none => if k = e.1 then some e.2 else none := by
  unfold hashmap_collect
  rw [List.foldl_cons, foldl_insert_lookup]
  rfl

theorem collect_lookup_mem (l : List (String × ActionInput)) :
    ∀ (k : String) (i : ActionInput), hashmap_collect l k = some i → (k, i) ∈ l := by
  induction l with
  | nil => intro k i h; exact absurd h (by simp [hashmap_collect])
  | cons e tl ih =>
    intro k i h
    rw [collect_cons_lookup] at h
    cases htl : hashmap_collect tl k with
    | some v =>
      rw [htl] at h
      cases h
      exact List.mem_cons_of_mem e (ih k i htl)
    | none =>
      rw [htl] at h
      by_cases hk : k = e.1
      · rw [if_pos hk] at h
        cases h
        rw [hk]
        exact List.mem_cons_self e tl
      · rw [if_neg hk] at h
        cases h

theorem collect_lookup_none_of_keys (l : List (String × ActionInput)) (k : String)
    (h : ∀ e ∈ l, e.1 ≠ k) : hashmap_collect l k = none := by
  induction l with
  | nil => rfl
  | cons e tl ih =>
    rw [collect_cons_lookup, ih (fun x hx => h x (List.mem_cons_of_mem e hx))]
    rw [if_neg (fun hk => h e (List.mem_cons_self e tl) hk.symm)]

theorem iter_entry (params : List Parameter) (inputs : List ActionInput) :
    ∀ e ∈ prepare_inputs_iter params inputs,
      ∃ p ∈ params, e.1 = p.name ∧ inputs.find? (matches_param p) = some e.2 := by
  intro e he
  obtain ⟨p, hp, hfp⟩ := List.mem_filterMap.mp he
  obtain ⟨i, hfind, rfl⟩ := Option.map_eq_some'.mp hfp
  exact ⟨p, hp, rfl, hfind⟩

theorem collect_lookup_nodup (params : List Parameter) (inputs : List ActionInput)
    (hnd : (params.map Parameter.name).Nodup) :
    ∀ p ∈ params, prepare_inputs params inputs p.name = inputs.find? (matches_param p) := by
  induction params with
  | nil => intro p hp; cases hp
  | cons q ps ih =>
    rw [List.map_cons, List.nodup_cons] at hnd
    intro p hp
    have hkeys : ∀ e ∈ prepare_inputs_iter ps inputs, e.1 ∈ ps.map Parameter.name := by
      intro e he
      obtain ⟨p', hp', hname, _⟩ := iter_entry ps inputs e he
      rw [hname]
      exact List.mem_map_of_mem Parameter.name hp'
    have hnone_q : hashmap_collect (prepare_inputs_iter ps inputs) q.name = none := by
      apply collect_lookup_none_of_keys
      intro e he hk
      exact hnd.1 (hk ▸ hkeys e he)
    have hiter : prepare_inputs_iter (q :: ps) inputs
        = match inputs.find? (matches_param q) with
          | none => prepare_inputs_iter ps inputs
          | some i => (q.name, i) :: prepare_inputs_iter ps inputs := by
      unfold prepare_inputs_iter
      rw [List.filterMap_cons]
      cases inputs.find? (matches_param q) <;> rfl
    rcases List.mem_cons.mp hp with hpq | hps
    · rw [hpq]
      unfold prepare_inputs
      rw [hiter]
      cases hfq : inputs.find? (matches_param q) with
      | none => exact hnone_q
      | some i => rw [collect_cons_lookup, hnone_q, if_pos rfl]
    · have hne : p.name ≠ q.name := by
        intro hpq
        exact hnd.1 (hpq ▸ List.mem_map_of_mem Parameter.name hps)
      have htail := ih hnd.2 p hps
      unfold prepare_inputs at htail ⊢
      rw [hiter]
      cases hfq : inputs.find? (matches_param q) with
      | none => exact htail
      | some i0 =>
        rw [collect_cons_lookup]
        cases htl : hashmap_collect (prepare_inputs_iter ps inputs) p.name with
        | some v =>
          rw [htl] at htail
          exact htail
        | none =>
          rw [htl] at htail
          rw [show ((q.name, i0).1) = q.name from rfl, if_neg hne]
          exact htail

/-- Claim C2 counterexample: with two declared parameters sharing the name
`"q"` (dtypes `String` and `Int`) and one matching input for each, the
collected `HashMap` holds at key `"q"` the *last* declaration's match, not
the first input matching the first `"q"` parameter - `HashMap` insertion
overwrites duplicate keys, so the mapping does not contain, for each
declared parameter, its first matching input keyed by its name (and, being
a `HashMap`, its entries have no declaration order at all). -/
theorem c2_prepare_inputs_counterexample :
    matches_param ⟨"q", "String", "d1"⟩ ⟨"q", "a", "String"⟩ = true
  ∧ [(⟨"q", "a", "String"⟩ : ActionInput), ⟨"q", "b", "Int"⟩].find?
      (matches_param ⟨"q", "String", "d1"⟩) = some ⟨"q", "a", "String"⟩
  ∧ prepare_inputs [⟨"q", "String", "d1"⟩, ⟨"q", "Int", "d2"⟩]
      [⟨"q", "a", "String"⟩, ⟨"q", "b", "Int"⟩] "q" = some ⟨"q", "b", "Int"⟩
  ∧ ¬ prepare_inputs [⟨"q", "String", "d1"⟩, ⟨"q", "Int", "d2"⟩]
      [⟨"q", "a", "String"⟩, ⟨"q", "b", "Int"⟩] "q" = some ⟨"q", "a", "String"⟩ :=
  ⟨by decide, by decide, by decide, by decide⟩

/-- Claim C2 amended: `prepareInputs` returns an unordered mapping
(a `HashMap`, observable only through per-key lookup): every entry is
keyed by some declared parameter's name and holds that parameter's first
matching input (exact name, case-insensitive dtype); inputs matching no
declared parameter never appear; and when the declared parameter names are
pairwise distinct, the entry at each parameter's name is exactly that
parameter's first matching input, absent when no input matches.  With
duplicate parameter names the last declaration's match overwrites the
others, and no declaration-order property holds. -/
theorem c2_prepare_inputs_amended (params : List Parameter) (inputs : List ActionInput) :
    (∀ k i, prepare_inputs params inputs k = some i →
        ∃ p ∈ params, k = p.name ∧ is_first_match inputs p i)
  ∧ (∀ i ∈ inputs, (∀ p ∈ params, matches_param p i = false) →
        ∀ k, ¬ prepare_inputs params inputs k = some i)
  ∧ ((params.map Parameter.name).Nodup →
        ∀ p ∈ params, prepare_inputs params inputs p.name
          = inputs.find? (matches_param p)) := by
  have hsound : ∀ k i, prepare_inputs params inputs k = some i →
      ∃ p ∈ params, k = p.name ∧ is_first_match inputs p i := by
    intro k i h
    have hmem := collect_lookup_mem (prepare_inputs_iter params inputs) k i h
    obtain ⟨p, hp, hname, hfind⟩ := iter_entry params inputs (k, i) hmem
    exact ⟨p, hp, hname, (find?_eq_some_iff_first p inputs i).mp hfind⟩
  refine ⟨hsound, ?_, collect_lookup_nodup params inputs⟩
  intro i _ hall k h
  obtain ⟨p, hp, _, hfirst⟩ := hsound k i h
  have hm : matches_param p i = true := hfirst.1
  rw [hall p hp] at hm
  exact Bool.false_ne_true hm

/-- Closed instance of the amended C2: with a single declared parameter,
the mapping holds at its name the first matching input, skipping a
non-matching one. -/
theorem c2_prepare_inputs_amended_witness :
    prepare_inputs [⟨"query", "String", "Search query"⟩]
      [⟨"q2", "x", "Int"⟩, ⟨"query", "rust", "string"⟩] "query"
      = some ⟨"query", "rust", "string"⟩ := by
  have h := (c2_prepare_inputs_amended [⟨"query", "String", "Search query"⟩]
      [⟨"q2", "x", "Int"⟩, ⟨"query", "rust", "string"⟩]).2.2 (by decide)
    ⟨"query", "String", "Search query"⟩ (by decide)
  exact h.trans (by decide)

theorem filterMap_code_eq_filter_map (steps : List Step) :
    (steps.filterMap fun s =>
      match s with
      | .Action action_step => action_step.code_action
      | _ => none)
      = (steps.filter is_action_with_code).map code_text := by
  induction steps with
  | nil => rfl
  | cons s t ih =>
    cases s with
    | Task ts => simpa [List.filterMap_cons, List.filter_cons, is_action_with_code] using ih
    | Planning ps => simpa [List.filterMap_cons, List.filter_cons, is_action_with_code] using ih
    | Action a =>
      cases h : a.code_action with
      | none =>
        simpa [List.filterMap_cons, List.filter_cons, is_action_with_code, h] using ih
      | some c =>
        simpa [List.filterMap_cons, List.filter_cons, is_action_with_code, code_text, h] using ih

/-- Claim C6: `returnFullCode` joins, in step order, the `code_action`
texts of exactly the `ActionStep`s that have one, separated by a blank
line; on the spec's example memory it returns `"a\n\nb"`. -/
theorem c6_return_full_code_spec (mem : AgentMemory) :
    return_full_code mem
      = String.intercalate "\n\n" ((mem.steps.filter is_action_with_code).map code_text)
  ∧ return_full_code full_code_mem = "a\n\nb" := by
  constructor
  · unfold return_full_code
    rw [filterMap_code_eq_filter_map]
  · decide

/-- Claim C8: `reset()` empties the step sequence and leaves the system
prompt unchanged. -/
theorem c8_reset_spec (mem : AgentMemory) :
    (reset mem).steps = [] ∧ (reset mem).system_prompt = mem.system_prompt :=
  ⟨rfl, rfl⟩

/-- Claim C9: whenever the streaming call succeeds, the batch call
`generate` returns the in-order concatenation of all chunks the stream
produces. -/
theorem c9_generate_drains_stream (m : StubModel) (messages : List Message)
    (chunks : List String) (h : m.genStream messages = some chunks) :
    async_generate m messages = some (String.join chunks) := by
  unfold async_generate
  rw [h]
  rfl

/-- Closed instance of C9: a stream of chunks `"a"`, `"b"` makes the
batch call return `"ab"`. -/
theorem c9_generate_drains_stream_witness :
    async_generate two_chunk_model [] = some "ab" := by
  have h := c9_generate_drains_stream two_chunk_model [] ["a", "b"] rfl
  exact h.trans (by decide)

theorem key_not_in_removed (l : List (String × JValue)) (k : String) :
    k ∉ (l.filter (fun kv => kv.1 != k)).map Prod.fst := by
  intro h
  obtain ⟨kv, hkv, hfst⟩ := List.mem_map.mp h
  have hne := (List.mem_filter.mp hkv).2
  rw [bne_iff_ne] at hne
  exact hne hfst

theorem model_input_key_present (s : Step) (h : has_model_input_field s = true) :
    "model_input_messages" ∈ (step_dict s).map Prod.fst := by
  cases s with
  | Task t => simp [has_model_input_field] at h
  | Action a => simp [step_dict, action_step_dict]
  | Planning p => simp [step_dict, planning_step_dict]

/-- Claim C7: `getSucculentSteps` strips the `model_input_messages` key
from every step's record while `getFullSteps` returns the full record,
which carries that key for every step kind that has the field (action and
planning steps); both preserve step order position by position. -/
theorem c7_steps_records_spec (mem : AgentMemory) :
    (∀ (i : Nat) (s : Step), mem.steps[i]? = some s →
        (get_succinct_steps mem)[i]?
          = some (JValue.obj ((step_dict s).filter (fun kv => kv.1 != "model_input_messages")))
      ∧ "model_input_messages"
          ∉ ((step_dict s).filter (fun kv => kv.1 != "model_input_messages")).map Prod.fst
      ∧ (get_full_steps mem)[i]? = some (JValue.obj (step_dict s))
      ∧ (has_model_input_field s = true →
          "model_input_messages" ∈ (step_dict s).map Prod.fst))
  ∧ (get_succinct_steps mem).length = mem.steps.length := by
  constructor
  · intro i s hi
    have hnonempty : mem.steps.isEmpty = false := by
      cases hsteps : mem.steps with
      | nil => rw [hsteps] at hi; simp at hi
      | cons a t => simp [hsteps]
    refine ⟨?_, key_not_in_removed _ _, ?_, model_input_key_present s⟩
    · unfold get_succinct_steps
      rw [List.getElem?_map, hi]
      rfl
    · unfold get_full_steps
      rw [hnonempty]
      simp only [Bool.false_eq_true, if_false]
      rw [List.getElem?_map, hi]
      rfl
  · unfold get_succinct_steps
    exact List.length_map _ _

/-- Closed instance of C7: the full record of a planning step carries the
`model_input_messages` key. -/
theorem c7_steps_records_spec_witness :
    "model_input_messages" ∈ (step_dict (.Planning sample_planning_step)).map Prod.fst :=
  (((c7_steps_records_spec planning_mem).1 0 (.Planning sample_planning_step) rfl).2.2.2) rfl

theorem of_regs_table_eq (regs : List RegEntry) :
    ∀ (r : CallbackRegistry) (k : StepKind),
      (regs.foldl CallbackRegistry.register r).table k
        = r.table k ++ regs.filter (fun e => e.kind == k) := by
  induction regs with
  | nil => intro r k; simp
  | cons e tl ih =>
    intro r k
    rw [List.foldl_cons, ih]
    by_cases h : e.kind = k
    · subst h
      simp [CallbackRegistry.register, List.filter_cons]
    · have h' : ¬(k = e.kind) := fun hk => h hk.symm
      simp [CallbackRegistry.register, List.filter_cons, h, h']

theorem flatten_invoke (s : MemStep) :
    ∀ (l : List RegEntry), (∀ e ∈ l, e.kind = kind_of s) →
      ((l.map (fun e => wrapped_invoke e s)).flatten) = l.map RegEntry.cid := by
  intro l
  induction l with
  | nil => intro _; rfl
  | cons e tl ih =>
    intro h
    have hk : kind_of s = e.kind := (h e (List.mem_cons_self e tl)).symm
    have hw : wrapped_invoke e s = [e.cid] := by
      unfold wrapped_invoke
      rw [if_pos hk]
    simp only [List.map_cons, List.flatten_cons, hw]
    rw [ih (fun x hx => h x (List.mem_cons_of_mem e hx))]
    rfl

/-- Claim C10: dispatching a step runs exactly the callbacks registered
for the step's runtime kind, in registration order; a kind with no
registrations invokes nothing and does not fail. -/
theorem c10_callback_dispatch_spec (regs : List RegEntry) (s : MemStep) :
    (of_regs regs).callback s
      = (regs.filter (fun e => e.kind == kind_of s)).map RegEntry.cid
  ∧ (regs.filter (fun e => e.kind == kind_of s) = [] →
      (of_regs regs).callback s = []) := by
  have htab : (of_regs regs).table (kind_of s)
      = regs.filter (fun e => e.kind == kind_of s) := by
    unfold of_regs
    rw [of_regs_table_eq]
    simp [CallbackRegistry.new]
  have hmain : (of_regs regs).callback s
      = (regs.filter (fun e => e.kind == kind_of s)).map RegEntry.cid := by
    unfold CallbackRegistry.callback
    rw [htab]
    apply flatten_invoke
    intro e he
    have := (List.mem_filter.mp he).2
    exact beq_iff_eq.mp this
  exact ⟨hmain, fun h0 => by rw [hmain, h0]; rfl⟩

/-- Closed instance of C10: a registry holding one action-step callback
invokes nothing on a task step. -/
theorem c10_callback_dispatch_spec_witness :
    (of_regs [⟨.action, 0⟩]).callback (.task ⟨"t", none⟩) = [] :=
  (c10_callback_dispatch_spec [⟨.action, 0⟩] (.task ⟨"t", none⟩)).2 (by decide)

theorem plan_branch_isSome (o : Option (List String)) :
    (match o with
      | none => some (PlanOutput.text "")
      | some s => some (PlanOutput.stream s)).isSome = true := by
  cases o <;> rfl

theorem gen_branch_isSome (o : Option (List String)) (pc : List String) :
    (match o with
      | some gen_chunks => some (pc ++ gen_chunks)
      | none => some (pc ++ [""])).isSome = true := by
  cases o <;> rfl

theorem plan_isSome_of_stream (a : Agent) (h : a.stream_outputs = true)
    (state : String) (b : Bool) : (a.plan state b).isSome = true := by
  unfold Agent.plan
  simp only [h, if_true]
  exact plan_branch_isSome _

theorem run_step_isSome_of_stream (a : Agent) (h : a.stream_outputs = true)
    (task : String) (s : Nat) : (run_step a task s).isSome = true := by
  unfold run_step
  cases hplan : a.plan task (s == 1) with
  | none =>
    have hps := plan_isSome_of_stream a h task (s == 1)
    rw [hplan] at hps
    simp at hps
  | some po =>
    simp only [h, if_true]
    exact gen_branch_isSome _ _

theorem run_step_all_fail (a : Agent) (h : a.stream_outputs = true)
    (hf : ∀ msgs, a.model.genStream msgs = none) (task : String) (s : Nat) :
    run_step a task s = some ["", ""] := by
  unfold run_step Agent.plan
  simp only [h, if_true, hf]
  rfl

theorem run_steps_isSome_of_stream (a : Agent) (h : a.stream_outputs = true)
    (task : String) : ∀ (k s : Nat), (run_steps a task k s).isSome = true := by
  intro k
  induction k with
  | zero => intro s; rfl
  | succ k ih =>
    intro s
    obtain ⟨cs, hcs⟩ := Option.isSome_iff_exists.mp (run_step_isSome_of_stream a h task s)
    obtain ⟨l, hl⟩ := Option.isSome_iff_exists.mp (ih (s + 1))
    simp only [run_steps, hcs, hl]
    rfl

theorem run_steps_all_fail (a : Agent) (h : a.stream_outputs = true)
    (hf : ∀ msgs, a.model.genStream msgs = none) (task : String) :
    ∀ (k s : Nat), run_steps a task k s = some (List.replicate (2 * k) "") := by
  intro k
  induction k with
  | zero => intro s; rfl
  | succ k ih =>
    intro s
    simp only [run_steps, run_step_all_fail a h hf task s, ih (s + 1)]
    simp [Nat.mul_succ, List.replicate_succ]

theorem run_steps_interrupt_irrel (a : Agent) (b c : Bool) (task : String) :
    ∀ (k s : Nat), run_steps { a with interrupt_switch := b } task k s
      = run_steps { a with interrupt_switch := c } task k s := by
  intro k
  induction k with
  | zero => intro s; rfl
  | succ k ih =>
    intro s
    have hstep : run_step { a with interrupt_switch := b } task s
        = run_step { a with interrupt_switch := c } task s := rfl
    simp only [run_steps, hstep]
    cases h : run_step { a with interrupt_switch := c } task s with
    | none => rfl
    | some cs => rw [ih (s + 1)]

/-- Claim C1 counterexample: in the spec's §8 end-to-end scenario (task
`"What is 2+2?"`, `max_steps = 1`, stubbed model streaming `"PLAN"` then
`"4"`) the run's chunks concatenate to `"PLAN4"`, but after the run the
memory holds no steps at all - `_run_stream` never appends the claimed
`[SystemPrompt, Task, Planning, Action]` records (the step list stays
empty, not length 3, and the source's `Step` enum cannot even hold a
`SystemPrompt`). -/
theorem c1_memory_counterexample :
    (run_stream_with_memory stub_agent "What is 2+2?" 1 init_mem).1 = some ["PLAN", "4"]
  ∧ String.join ["PLAN", "4"] = "PLAN4"
  ∧ (run_stream_with_memory stub_agent "What is 2+2?" 1 init_mem).2.steps = []
  ∧ ¬((run_stream_with_memory stub_agent "What is 2+2?" 1 init_mem).2.steps.length = 3) :=
  ⟨by decide, by decide, rfl, by decide⟩

/-- Claim C1 amended: in the §8 scenario the run yields exactly the plan
chunk `"PLAN"` followed by the generation chunk `"4"`, concatenating to
`"PLAN4"`; the run never writes to the agent memory, which is returned
exactly as it was before the run. -/
theorem c1_run_stream_amended (mem : AgentMemory) :
    run_stream stub_agent "What is 2+2?" 1 = some ["PLAN", "4"]
  ∧ String.join ((run_stream stub_agent "What is 2+2?" 1).getD []) = "PLAN4"
  ∧ (run_stream_with_memory stub_agent "What is 2+2?" 1 mem).2 = mem :=
  ⟨by decide, by decide, rfl⟩

/-- Claim C3 counterexample: with the interrupt flag already set (hence
set before step 2 begins), a two-step run still performs step 2 - it
yields all four chunks instead of only step 1's two - and memory holds no
step-1 records either, since the run never writes memory.  No
`Terminal(Cancelled)` transition exists in the code: `interrupt_switch`
is never read. -/
theorem c3_interrupt_counterexample :
    run_stream interrupted_agent "What is 2+2?" 2 = some ["PLAN", "4", "PLAN", "4"]
  ∧ (run_stream_with_memory interrupted_agent "What is 2+2?" 2 init_mem).2.steps = []
  ∧ ¬(["PLAN", "4", "PLAN", "4"] = ["PLAN", "4"]) :=
  ⟨by decide, rfl, by decide⟩

/-- Claim C3 amended: the interrupt flag has no effect on a run - the
output chunk sequence is identical with the flag set or clear (every step
up to `max_steps` is performed either way), and the run leaves the agent
memory untouched. -/
theorem c3_interrupt_amended (a : Agent) (task : String) (n : Nat) (mem : AgentMemory) :
    run_stream { a with interrupt_switch := true } task n
      = run_stream { a with interrupt_switch := false } task n
  ∧ (run_stream_with_memory a task n mem).2 = mem :=
  ⟨run_steps_interrupt_irrel a true false task n 1, rfl⟩

/-- Claim C4 counterexample: with `stream_outputs = false` a model-call
failure during planning is not caught - `async_generate`'s `.expect`
panics and the run aborts (`none`), yielding no empty chunk and no
further steps. -/
theorem c4_batch_panic_counterexample :
    run_stream batch_failing_agent "t" 1 = none
  ∧ (run_stream batch_failing_agent "t" 1).isSome = false :=
  ⟨by decide, by decide⟩

/-- Claim C4 amended: in streaming mode (`stream_outputs = true`) a
model-call failure during planning or generation is caught at the call
site and an empty chunk is substituted, and the run continues through all
its steps: such a run never aborts, and if every model call fails it
still completes, yielding exactly one empty planning chunk and one empty
generation chunk per step. -/
theorem c4_stream_failure_amended (a : Agent) (h : a.stream_outputs = true)
    (task : String) (n : Nat) :
    (run_stream a task n).isSome = true
  ∧ ((∀ msgs, a.model.genStream msgs = none) →
      run_stream a task n = some (List.replicate (2 * n) "")) :=
  ⟨run_steps_isSome_of_stream a h task n 1,
   fun hf => run_steps_all_fail a h hf task n 1⟩

/-- Closed instance of the amended C4: a streaming one-step run whose
model always fails yields exactly two empty chunks. -/
theorem c4_stream_failure_amended_witness :
    run_stream stream_failing_agent "t" 1 = some ["", ""] := by
  have h := (c4_stream_failure_amended stream_failing_agent rfl "t" 1).2 (fun _ => rfl)
  exact h.trans (by decide)

/-- Claim C5 counterexample: `DuckDuckGoSearchAction::act` panics
(an opaque fault, modelled `none`) both when no supplied input matches
the declared `query` parameter (`.unwrap()` on a missing key) and when
the external process fails (`.expect(..)`); no `ActionInvocationError`
value exists anywhere in the source. -/
theorem c5_act_panic_counterexample :
    duckduckgo_act (fun _ => some "ok") [] = none
  ∧ duckduckgo_act (fun _ => none) [⟨"query", "rust", "String"⟩] = none :=
  ⟨by decide, by decide⟩

/-- Claim C5 amended: on internal failure `act` propagates a panic
rather than a structured error: it aborts when no input matches the
declared `query` parameter and when the external process fails, and on
success wraps the process stdout as the `Observation`. -/
theorem c5_act_amended (proc : String → Option String) (inputs : List ActionInput) :
    (inputs.find? (matches_param ⟨"query", "String", "Search query"⟩) = none →
      duckduckgo_act proc inputs = none)
  ∧ (∀ i, inputs.find? (matches_param ⟨"query", "String", "Search query"⟩) = some i →
      duckduckgo_act proc inputs
        = (proc i.value).map (fun out => (⟨out⟩ : Observation))) := by
  have hmatched : prepare_inputs duckduckgo_info.parameters inputs "query"
      = inputs.find? (matches_param ⟨"query", "String", "Search query"⟩) :=
    collect_lookup_nodup duckduckgo_info.parameters inputs (by decide)
      ⟨"query", "String", "Search query"⟩ (by decide)
  constructor
  · intro h
    unfold duckduckgo_act
    show ((match prepare_inputs duckduckgo_info.parameters inputs "query" with
          | none => none
          | some input =>
            match proc input.value with
            | none => none
            | some stdout_str => some (⟨stdout_str⟩ : Observation)) : Option Observation) = _
    rw [hmatched, h]
  · intro i h
    unfold duckduckgo_act
    show ((match prepare_inputs duckduckgo_info.parameters inputs "query" with
          | none => none
          | some input =>
            match proc input.value with
            | none => none
            | some stdout_str => some (⟨stdout_str⟩ : Observation)) : Option Observation) = _
    rw [hmatched, h]
    show ((match proc i.value with
          | none => none
          | some stdout_str => some (⟨stdout_str⟩ : Observation)) : Option Observation) = _
    cases proc i.value <;> rfl

/-- Closed instance of the amended C5: a matching query input and a
successful process produce the process stdout as observation. -/
theorem c5_act_amended_witness :
    duckduckgo_act (fun q => some ("R:" ++ q)) [⟨"query", "rust", "string"⟩]
      = some ⟨"R:rust"⟩ := by
  have h := (c5_act_amended (fun q => some ("R:" ++ q)) [⟨"query", "rust", "string"⟩]).2
    ⟨"query", "rust", "string"⟩ (by decide)
  exact h.trans (by decide)
